import Mathlib

/-!
Shallow embedding of the AgenticAI healthcare-claim pipeline
(`src/lib/agents.ts`, `src/lib/schemas.ts`, `src/app/api/run/route.ts`).

JavaScript strings are modelled as `String`, `string | null | undefined`
as `Option String`, and JS truthiness on strings (`!s`) as emptiness.
The LLM calls (`askGeminiJSON`) are external network effects; each agent
takes the outcome of its own LLM call as an explicit `Except` parameter:
`.error` models a thrown/failed call (the `catch` branches), `.ok` a
parsed JSON value, carrying exactly the fields the agent reads from it.
-/

/-- JS `p.isPrefix-like` check on character lists: does `p` start `l`? -/
def listStartsWith : List Char → List Char → Bool
  | [], _ => true
  | _ :: _, [] => false
  | p :: ps, c :: cs => (p == c) && listStartsWith ps cs

/-- JS `String.prototype.includes`: does `pat` occur contiguously in `l`? -/
def listIncludes (pat : List Char) : List Char → Bool
  | [] => listStartsWith pat []
  | c :: cs => listStartsWith pat (c :: cs) || listIncludes pat cs

/-- `s.includes(pat)` from JS. -/
def strIncludes (s pat : String) : Bool := listIncludes pat.data s.data

/-- JS `String.prototype.trim`, on the underlying character list (the
whitespace the relevant inputs contain is ASCII). -/
def jsTrim (s : String) : String :=
  String.mk (((s.data.dropWhile Char.isWhitespace).reverse.dropWhile
    Char.isWhitespace).reverse)

/-- JS `String.prototype.toLowerCase` (ASCII case mapping, which is all the
CPT table's lowercase substrings need). -/
def jsToLower (s : String) : String := String.mk (s.data.map Char.toLower)

/-- JS `String.prototype.padStart(n, c)` (source uses `padStart(4, "0")` etc.). -/
def padStart (s : String) (n : Nat) (c : Char) : String :=
  String.mk (List.replicate (n - s.length) c) ++ s

/-- The regex `^(\d{4})-(\d{2})-(\d{2})$` from `normalizeDOB` in agents.ts. -/
def matchISO (s : String) : Bool :=
  match s.data with
  | [y1, y2, y3, y4, h1, m1, m2, h2, d1, d2] =>
    y1.isDigit && y2.isDigit && y3.isDigit && y4.isDigit && (h1 == '-') &&
    m1.isDigit && m2.isDigit && (h2 == '-') && d1.isDigit && d2.isDigit
  | _ => false

/-- A separator accepted by the `[\/\-]` character class. -/
def isSep (c : Char) : Bool := c == '/' || c == '-'

/-- The regex `^(\d{1,2})[\/\-](\d{1,2})[\/\-](\d{2,4})$` from `normalizeDOB`.
Greedy digit groups followed by non-digit separators are equivalent to
maximal digit runs, so the match is computed with `takeWhile`/`dropWhile`.
Returns the three captured groups `(mm, dd, yyyy)` on success. -/
def matchMDY (s : String) : Option (String × String × String) :=
  let l := s.data
  let m := l.takeWhile Char.isDigit
  match l.dropWhile Char.isDigit with
  | c1 :: r1 =>
    let d := r1.takeWhile Char.isDigit
    match r1.dropWhile Char.isDigit with
    | c2 :: r2 =>
      let y := r2.takeWhile Char.isDigit
      match r2.dropWhile Char.isDigit with
      | [] =>
        if 1 ≤ m.length ∧ m.length ≤ 2 ∧ isSep c1 = true ∧
            1 ≤ d.length ∧ d.length ≤ 2 ∧ isSep c2 = true ∧
            2 ≤ y.length ∧ y.length ≤ 4 then
          some (String.mk m, String.mk d, String.mk y)
        else none
      | _ :: _ => none
    | [] => none
  | [] => none

/-- `normalizeDOB` from agents.ts: coerce to `YYYY-MM-DD` when the input
matches the ISO or the `M/D/Y` / `M-D-Y` pattern, otherwise leave as-is.
A two-digit year is prefixed with `"19"` (the source's "naive" rule). -/
def normalizeDOB (dob : String) : String :=
  if matchISO dob then dob
  else
    match matchMDY dob with
    | some (mm, dd, yyyy) =>
      let y := (if yyyy.length = 2 then "19" else "") ++ yyyy
      padStart y 4 '0' ++ "-" ++ padStart mm 2 '0' ++ "-" ++ padStart dd 2 '0'
    | none => dob

/-! ## Data model (`src/lib/schemas.ts`) -/

/-- `severity: z.enum(["info", "warn", "error"])`. -/
inductive Severity
  | info
  | warn
  | error
deriving DecidableEq, Repr

/-- The string the zod enum stores for each severity. -/
def severityStr : Severity → String
  | .info => "info"
  | .warn => "warn"
  | .error => "error"

/-- `VerificationIssueSchema`. -/
structure VerificationIssue where
  field : String
  message : String
  severity : Severity
deriving DecidableEq, Repr

/-- `ClaimInputSchema`: optional/nullable fields become `Option String`. -/
structure ClaimInput where
  patientName : String
  dob : String
  insuranceId : Option String
  procedure : String
  cptCode : Option String
deriving DecidableEq, Repr

/-- `status: z.enum(["READY", "BLOCKED"])`. -/
inductive SubStatus
  | READY
  | BLOCKED
deriving DecidableEq, Repr

/-- `SubmissionDraftSchema`. -/
structure SubmissionDraft where
  patient : String
  dob : String
  insuranceId : Option String
  procedure : String
  cptCode : Option String
  status : SubStatus
  notes : List String
deriving DecidableEq, Repr

/-- `denialRisk: z.enum(["low", "medium", "high"])`. -/
inductive Risk
  | low
  | medium
  | high
deriving DecidableEq, Repr

/-! ## CPT reference table (`CPT_REF` in agents.ts) -/

structure CptEntry where
  label : String
  procedures : List String
deriving DecidableEq, Repr

/-- `CPT_REF` in the order the source text declares its three entries. -/
def CPT_REF : List (String × CptEntry) :=
  [("73721", ⟨"MRI Lower Extremity w/o contrast", ["mri knee", "knee mri"]⟩),
   ("70551", ⟨"MRI Brain w/o contrast", ["mri brain", "brain mri"]⟩),
   ("72148", ⟨"MRI Lumbar Spine w/o contrast", ["mri spine", "lumbar mri"]⟩)]

/-- The entry list `Object.entries(CPT_REF)` actually iterates at runtime.
All three keys are array-index strings, and ECMAScript enumerates such keys
in ascending numeric order before any other string keys, so the runtime
order is 70551, 72148, 73721 — not the declaration order above. -/
def CPT_entries : List (String × CptEntry) :=
  [("70551", ⟨"MRI Brain w/o contrast", ["mri brain", "brain mri"]⟩),
   ("72148", ⟨"MRI Lumbar Spine w/o contrast", ["mri spine", "lumbar mri"]⟩),
   ("73721", ⟨"MRI Lower Extremity w/o contrast", ["mri knee", "knee mri"]⟩)]

/-- `CPT_REF[code]` key lookup (keys are distinct, so order is irrelevant). -/
def cptLookup (code : String) : Option CptEntry :=
  (CPT_entries.find? (fun e => e.1 == code)).map (·.2)

/-! ## Agents (`src/lib/agents.ts`) -/

/-- The test `!claim.insuranceId || claim.insuranceId.trim() === ""` from
`verifierAgent`: JS falsiness (null/undefined/empty) or whitespace-only. -/
def insuranceMissing : Option String → Bool
  | none => true
  | some s => s == "" || jsTrim s == ""

/-- The `severity: "info", field: "general"` issue built from an LLM note. -/
def mkInfoIssue (n : String) : VerificationIssue :=
  ⟨"general", n, .info⟩

/-- Return type of `verifierAgent`. -/
structure VerifierResult where
  issues : List VerificationIssue
  normalized : ClaimInput
deriving DecidableEq, Repr

/-- The four deterministic field checks of `verifierAgent`, in source order. -/
def verifierChecks (claim : ClaimInput) : List VerificationIssue :=
  (if insuranceMissing claim.insuranceId then
    [⟨"insuranceId", "Missing insurance ID.", .error⟩] else []) ++
  (if claim.dob = "" then
    [⟨"dob", "DOB missing or invalid format.", .warn⟩] else []) ++
  (if claim.patientName = "" then
    [⟨"patientName", "Patient name missing.", .error⟩] else []) ++
  (if claim.procedure = "" then
    [⟨"procedure", "Procedure missing.", .error⟩] else [])

/-- `verifierAgent`: deterministic checks plus up to three LLM "info" notes.
`llm` is the outcome of `askGeminiJSON`: `.error` a thrown call (caught and
ignored), `.ok none` a reply whose `notes` is not an array, `.ok (some ns)`
a reply with a notes array. -/
def verifierAgent (claim : ClaimInput)
    (llm : Except Unit (Option (List String))) : VerifierResult :=
  let notes : List String :=
    match llm with
    | .ok (some ns) => ns.take 3
    | .ok none => []
    | .error _ => []
  ⟨verifierChecks claim ++ notes.map mkInfoIssue, claim⟩

/-- Return type of `coderAgent`. -/
structure CoderResult where
  suggestedCpt : Option String
  justification : String
  valid : Bool
deriving DecidableEq, Repr

/-- The lowercased, trimmed procedure text
`claim.procedure.toLowerCase().trim()` computed at the top of `coderAgent`. -/
def coderProc (claim : ClaimInput) : String := jsTrim (jsToLower claim.procedure)

/-- The check `claim.cptCode && CPT_REF[claim.cptCode]` followed by
`procedures.some((p) => proc.includes(p))` in `coderAgent`, as a function
of the processed procedure text and the supplied code: a truthy CPT code
whose table entry lists a substring of the procedure text. -/
def coderValidAux (proc : String) : Option String → Bool
  | none => false
  | some c =>
    if c == "" then false
    else
      match cptLookup c with
      | none => false
      | some entry => entry.procedures.any (fun p => strIncludes proc p)

/-- The `valid` flag of `coderAgent`. -/
def coderValid (claim : ClaimInput) : Bool :=
  coderValidAux (coderProc claim) claim.cptCode

/-- The fallback scan `Object.entries(CPT_REF).find(([_, v]) =>
v.procedures.some((p) => proc.includes(p)))` of `coderAgent`. -/
def entriesSuggestion (proc : String) : Option String :=
  (CPT_entries.find?
    (fun e => e.2.procedures.any (fun p => strIncludes proc p))).map (·.1)

/-- The deterministic core of `coderAgent`: validate a supplied CPT code
against the table, else suggest the first table entry (in `Object.entries`
iteration order) one of whose substrings occurs in the lowercased trimmed
procedure text. Returns `(suggested, valid)`. -/
def coderCore (claim : ClaimInput) : Option String × Bool :=
  if coderValid claim then (claim.cptCode, true)
  else (entriesSuggestion (coderProc claim), false)

/-- `coderAgent`: the deterministic core plus an LLM one-sentence
justification with a fixed fallback on failure or a non-string reply. -/
def coderAgent (claim : ClaimInput)
    (llm : Except Unit (Option String)) : CoderResult :=
  let core := coderCore claim
  let justification :=
    match llm with
    | .ok (some j) => j
    | .ok none => "Heuristic CPT validation completed."
    | .error _ => "Heuristic CPT validation completed."
  ⟨core.1, justification, core.2⟩

/-- `submissionAgent`: a pure function of the claim, the issue list and the
suggested CPT code. `suggestedCpt ?? claim.cptCode ?? null` becomes
`Option.orElse`; notes render each issue as `"SEVERITY: message"`. -/
def submissionAgent (claim : ClaimInput) (issues : List VerificationIssue)
    (suggestedCpt : Option String) : SubmissionDraft :=
  let blocked := issues.any (fun i => i.severity == .error)
  { patient := claim.patientName
    dob := claim.dob
    insuranceId := claim.insuranceId
    procedure := claim.procedure
    cptCode := suggestedCpt.orElse (fun _ => claim.cptCode)
    status := if blocked then .BLOCKED else .READY
    notes := issues.map (fun i => (severityStr i.severity).toUpper ++ ": " ++ i.message) }

/-- The JS falsiness test `!submission.insuranceId` on a nullable string:
true for null and for the empty string. -/
def strFalsy : Option String → Bool
  | none => true
  | some s => s == ""

/-- The denial-risk heuristic computed at the top of `reviewerAgent`. -/
def reviewerRisk (s : SubmissionDraft) : Risk :=
  if s.status == .BLOCKED then .high
  else if strFalsy s.insuranceId || strFalsy s.cptCode then .medium
  else .low

/-- Return type of `reviewerAgent`. -/
structure ReviewerResult where
  denialRisk : Risk
  rationale : String
deriving DecidableEq, Repr

/-- `reviewerAgent`: deterministic risk plus an LLM rationale with a fixed
fallback on failure or a non-string reply. -/
def reviewerAgent (s : SubmissionDraft)
    (llm : Except Unit (Option String)) : ReviewerResult :=
  ⟨reviewerRisk s,
   match llm with
   | .ok (some r) => r
   | .ok none => "Automated review completed."
   | .error _ => "Automated review completed."⟩

/-! ## Orchestrator metrics and `runWorkflow` (agents.ts) -/

/-- JS `Math.round` on the exact rationals the model computes with:
round half toward positive infinity, i.e. `⌊x + 1/2⌋`. -/
def jsRound (x : ℚ) : ℤ := ⌊x + 1 / 2⌋

/-- The `metrics` object assembled at the end of `runWorkflow`. -/
structure Metrics where
  baselineSeconds : ℚ
  automatedSeconds : ℤ
  timeSavedPercent : ℤ
  cleanClaimRate : ℕ
deriving DecidableEq, Repr

/-- The metric computation of `runWorkflow`, as a function of the measured
elapsed milliseconds (`performance.now()` difference, a nonnegative real
modelled as a rational) and the submission status. -/
def runMetrics (automatedMs : ℚ) (status : SubStatus) : Metrics :=
  let baselineSeconds : ℚ := 12 * 60 / 10
  let automatedSeconds : ℤ := max 1 (jsRound (automatedMs / 1000))
  { baselineSeconds := baselineSeconds
    automatedSeconds := automatedSeconds
    timeSavedPercent := jsRound ((1 - (automatedSeconds : ℚ) / baselineSeconds) * 100)
    cleanClaimRate := if status == .READY then 98 else 82 }

/-- The record `runWorkflow` returns (the audit log and the LLM-generated
explanation string carry no verified content and are omitted). -/
structure WorkflowResult where
  parsed : ClaimInput
  verified : VerifierResult
  coder : CoderResult
  submission : SubmissionDraft
  reviewer : ReviewerResult
  metrics : Metrics
deriving DecidableEq, Repr

/-- `runWorkflow` after the parser step: the four remaining agents run in
sequence on the parsed claim; each LLM outcome is an explicit parameter, as
is the measured wall-clock duration of the five-step sequence. -/
def runWorkflow (parsed : ClaimInput)
    (llmVerify : Except Unit (Option (List String)))
    (llmCoder llmReview : Except Unit (Option String))
    (automatedMs : ℚ) : WorkflowResult :=
  let verified := verifierAgent parsed llmVerify
  let coder := coderAgent parsed llmCoder
  let submission := submissionAgent parsed verified.issues coder.suggestedCpt
  let reviewer := reviewerAgent submission llmReview
  { parsed := parsed
    verified := verified
    coder := coder
    submission := submission
    reviewer := reviewer
    metrics := runMetrics automatedMs submission.status }

/-! ## HTTP run endpoint (`src/app/api/run/route.ts`) -/

/-- A JSON body the handler can send: the validated workflow response, or
the `\x7b error: message \x7d` object. -/
inductive HttpBody
  | workflow (w : WorkflowResult)
  | errorMessage (m : String)
deriving DecidableEq, Repr

structure HttpResponse where
  status : Nat
  body : HttpBody
deriving DecidableEq, Repr

/-- The `POST` handler: everything inside the `try` — body parse,
`runWorkflow`, schema validation — is summarized by its outcome `chain`:
`.ok` the validated response, `.error` the message of whatever was thrown. -/
def handlePOST (chain : Except String WorkflowResult) : HttpResponse :=
  match chain with
  | .ok v => ⟨200, .workflow v⟩
  | .error m => ⟨400, .errorMessage m⟩

/-! ## Theorems -/

/-- Claim C1: for every claim, issue list, and suggested code passed to the
Submission step, the resulting SubmissionDraft has status BLOCKED if and
only if at least one issue in the list has severity "error", and status
READY otherwise. -/
theorem C1_submission_status (claim : ClaimInput) (issues : List VerificationIssue)
    (cpt : Option String) :
    ((submissionAgent claim issues cpt).status = .BLOCKED ↔
      ∃ i ∈ issues, i.severity = .error) ∧
    ((submissionAgent claim issues cpt).status = .READY ↔
      ¬ ∃ i ∈ issues, i.severity = .error) := by
  have hs : (submissionAgent claim issues cpt).status =
      (if issues.any (fun i => i.severity == .error) then SubStatus.BLOCKED
       else SubStatus.READY) := rfl
  rw [hs]
  cases hb : issues.any (fun i => i.severity == .error) <;>
    simp_all [List.any_eq_true, List.any_eq_false]

/-- Claim C3: for every SubmissionDraft given to the Reviewer step, the
computed denial risk is "high" when the draft's status is BLOCKED; "medium"
when the status is READY and the draft's insuranceId or cptCode is missing
(JS-falsy: null or empty); and "low" otherwise — independent of the outcome
of the LLM rationale call. -/
theorem C3_reviewer_risk (s : SubmissionDraft) (llm llm' : Except Unit (Option String)) :
    (reviewerAgent s llm).denialRisk = (reviewerAgent s llm').denialRisk ∧
    ((reviewerAgent s llm).denialRisk = .high ↔ s.status = .BLOCKED) ∧
    ((reviewerAgent s llm).denialRisk = .medium ↔
      s.status = .READY ∧ (strFalsy s.insuranceId = true ∨ strFalsy s.cptCode = true)) ∧
    ((reviewerAgent s llm).denialRisk = .low ↔
      s.status = .READY ∧ strFalsy s.insuranceId = false ∧ strFalsy s.cptCode = false) := by
  have hd : ∀ l, (reviewerAgent s l).denialRisk = reviewerRisk s := fun _ => rfl
  rw [hd, hd]
  unfold reviewerRisk
  cases hst : s.status <;>
    cases hi : strFalsy s.insuranceId <;>
    cases hc : strFalsy s.cptCode <;> simp_all

/-- Claim C6: date normalization is idempotent — for every string of the
form YYYY-MM-DD (the ISO pattern of `normalizeDOB`), the function returns
the string unchanged, so it is the identity on already-normalized strings. -/
theorem C6_normalize_idempotent (s : String) (h : matchISO s = true) :
    normalizeDOB s = s := by
  simp [normalizeDOB, h]

/-- Witness for C6 at the concrete already-normalized string "1975-01-01". -/
theorem C6_normalize_idempotent_witness : normalizeDOB "1975-01-01" = "1975-01-01" :=
  C6_normalize_idempotent "1975-01-01" (by decide)

/-- Claim C8: if the LLM enrichment call fails in the Verifier, Coder, or
Reviewer step, the failure is absorbed locally and a fixed fallback is
substituted — zero info notes in the Verifier, the justification
"Heuristic CPT validation completed." in the Coder, the rationale
"Automated review completed." in the Reviewer — and each step still
returns its normal deterministic result (the functions are total, so the
pipeline never aborts on these three calls). -/
theorem C8_llm_failure_fallbacks (claim : ClaimInput) (s : SubmissionDraft) :
    (verifierAgent claim (.error ())).issues = verifierChecks claim ∧
    (verifierAgent claim (.error ())).normalized = claim ∧
    (coderAgent claim (.error ())).justification = "Heuristic CPT validation completed." ∧
    (coderAgent claim (.error ())).suggestedCpt = (coderCore claim).1 ∧
    (coderAgent claim (.error ())).valid = (coderCore claim).2 ∧
    (reviewerAgent s (.error ())).rationale = "Automated review completed." ∧
    (reviewerAgent s (.error ())).denialRisk = reviewerRisk s :=
  ⟨by simp [verifierAgent], rfl, rfl, rfl, rfl, rfl, rfl⟩

/-- Claim C9: the run endpoint returns 200 with the validated workflow
response when the chain succeeds, 400 with a single error-message body on
any failure, and no other status code. -/
theorem C9_http_endpoint (chain : Except String WorkflowResult) :
    ((handlePOST chain).status = 200 ∨ (handlePOST chain).status = 400) ∧
    (∀ w, chain = .ok w → handlePOST chain = ⟨200, .workflow w⟩) ∧
    (∀ m, chain = .error m → handlePOST chain = ⟨400, .errorMessage m⟩) ∧
    ((handlePOST chain).status = 200 ↔ ∃ w, chain = .ok w) := by
  cases chain <;> simp [handlePOST]

/-- Witness for C9 at a concrete failed chain. -/
theorem C9_http_endpoint_witness :
    handlePOST (Except.error "Unknown error") = ⟨400, .errorMessage "Unknown error"⟩ :=
  (C9_http_endpoint (Except.error "Unknown error")).2.2.1 "Unknown error" rfl

/-! ## Helpers for the Verifier counting claim -/

theorem countP_map_info_eq_zero (p : VerificationIssue → Bool) (ns : List String)
    (hp : ∀ n, p (mkInfoIssue n) = false) :
    (ns.map mkInfoIssue).countP p = 0 := by
  induction ns with
  | nil => rfl
  | cons a t ih => simp [List.countP_cons, hp, ih]

theorem verifierAgent_issues_split (claim : ClaimInput)
    (llm : Except Unit (Option (List String))) :
    ∃ ns : List String,
      (verifierAgent claim llm).issues = verifierChecks claim ++ ns.map mkInfoIssue := by
  cases llm with
  | error e => exact ⟨[], rfl⟩
  | ok o =>
    cases o with
    | none => exact ⟨[], rfl⟩
    | some ns => exact ⟨ns.take 3, rfl⟩

theorem verifierChecks_countP_insurance (claim : ClaimInput)
    (h : insuranceMissing claim.insuranceId = true) :
    (verifierChecks claim).countP
      (fun i => i.field == "insuranceId" && i.severity == .error) = 1 := by
  unfold verifierChecks
  split_ifs <;> simp_all

theorem verifierChecks_countP_patient (claim : ClaimInput)
    (h : claim.patientName = "") :
    (verifierChecks claim).countP
      (fun i => i.field == "patientName" && i.severity == .error) = 1 := by
  unfold verifierChecks
  split_ifs <;> simp_all

theorem verifierChecks_countP_proc (claim : ClaimInput)
    (h : claim.procedure = "") :
    (verifierChecks claim).countP
      (fun i => i.field == "procedure" && i.severity == .error) = 1 := by
  unfold verifierChecks
  split_ifs <;> simp_all

theorem verifierChecks_countP_dob (claim : ClaimInput)
    (h : claim.dob = "") :
    (verifierChecks claim).countP
      (fun i => i.field == "dob" && i.severity == .warn) = 1 := by
  unfold verifierChecks
  split_ifs <;> simp_all

theorem verifierChecks_any_error (claim : ClaimInput)
    (h : insuranceMissing claim.insuranceId = true ∨
         claim.patientName = "" ∨ claim.procedure = "") :
    (verifierChecks claim).any (fun i => i.severity == .error) = true := by
  unfold verifierChecks
  rcases h with h | h | h <;> split_ifs <;> simp_all

/-- Claim C2: for every ClaimInput whose insuranceId is absent or empty,
whose patientName is empty, or whose procedure is empty, the Verifier step
emits exactly one issue of severity "error" for that field (and a "warn"
issue when dob is empty), and feeding the resulting issue list through the
Submission step yields status BLOCKED — regardless of the LLM notes. -/
theorem C2_verifier_errors_block (claim : ClaimInput)
    (llm : Except Unit (Option (List String))) (cpt : Option String)
    (h : (claim.insuranceId = none ∨ claim.insuranceId = some "") ∨
         claim.patientName = "" ∨ claim.procedure = "") :
    ((claim.insuranceId = none ∨ claim.insuranceId = some "") →
      (verifierAgent claim llm).issues.countP
        (fun i => i.field == "insuranceId" && i.severity == .error) = 1) ∧
    (claim.patientName = "" →
      (verifierAgent claim llm).issues.countP
        (fun i => i.field == "patientName" && i.severity == .error) = 1) ∧
    (claim.procedure = "" →
      (verifierAgent claim llm).issues.countP
        (fun i => i.field == "procedure" && i.severity == .error) = 1) ∧
    (claim.dob = "" →
      (verifierAgent claim llm).issues.countP
        (fun i => i.field == "dob" && i.severity == .warn) = 1) ∧
    (submissionAgent claim (verifierAgent claim llm).issues cpt).status = .BLOCKED := by
  obtain ⟨ns, hn⟩ := verifierAgent_issues_split claim llm
  have hmiss : (claim.insuranceId = none ∨ claim.insuranceId = some "") →
      insuranceMissing claim.insuranceId = true := by
    rintro (hi | hi) <;> rw [hi] <;> decide
  refine ⟨?_, ?_, ?_, ?_, ?_⟩
  · intro hi
    rw [hn, List.countP_append, countP_map_info_eq_zero _ _ (fun n => rfl),
      verifierChecks_countP_insurance claim (hmiss hi)]
  · intro hi
    rw [hn, List.countP_append, countP_map_info_eq_zero _ _ (fun n => rfl),
      verifierChecks_countP_patient claim hi]
  · intro hi
    rw [hn, List.countP_append, countP_map_info_eq_zero _ _ (fun n => rfl),
      verifierChecks_countP_proc claim hi]
  · intro hi
    rw [hn, List.countP_append, countP_map_info_eq_zero _ _ (fun n => rfl),
      verifierChecks_countP_dob claim hi]
  · have h' : insuranceMissing claim.insuranceId = true ∨
        claim.patientName = "" ∨ claim.procedure = "" := by
      rcases h with hi | hi | hi
      · exact Or.inl (hmiss hi)
      · exact Or.inr (Or.inl hi)
      · exact Or.inr (Or.inr hi)
    have hb : (verifierAgent claim llm).issues.any
        (fun i => i.severity == .error) = true := by
      rw [hn, List.any_append, verifierChecks_any_error claim h', Bool.true_or]
    have hs : (submissionAgent claim (verifierAgent claim llm).issues cpt).status =
        (if (verifierAgent claim llm).issues.any (fun i => i.severity == .error)
         then SubStatus.BLOCKED else SubStatus.READY) := rfl
    rw [hs, hb, if_pos rfl]

/-- Witness for C2 at a concrete claim with empty insuranceId and dob. -/
theorem C2_verifier_errors_block_witness :
    ((⟨"John Doe", "", some "", "MRI Knee", none⟩ : ClaimInput).insuranceId = none ∨
      (⟨"John Doe", "", some "", "MRI Knee", none⟩ : ClaimInput).insuranceId = some "") ∧
    (verifierAgent ⟨"John Doe", "", some "", "MRI Knee", none⟩ (.error ())).issues.countP
      (fun i => i.field == "insuranceId" && i.severity == .error) = 1 ∧
    (verifierAgent ⟨"John Doe", "", some "", "MRI Knee", none⟩ (.error ())).issues.countP
      (fun i => i.field == "dob" && i.severity == .warn) = 1 ∧
    (submissionAgent ⟨"John Doe", "", some "", "MRI Knee", none⟩
      (verifierAgent ⟨"John Doe", "", some "", "MRI Knee", none⟩ (.error ())).issues
      none).status = .BLOCKED := by
  have h := C2_verifier_errors_block ⟨"John Doe", "", some "", "MRI Knee", none⟩
    (.error ()) none (Or.inl (Or.inr rfl))
  exact ⟨Or.inr rfl, h.1 (Or.inr rfl), h.2.2.2.1 rfl, h.2.2.2.2⟩

/-! ## Coder step (claim C4) -/

/-- The suggestion scan as the claim words it: the lookup table traversed in
its declaration order (73721, then 70551, then 72148). Stated from the
claim's words for comparison with `entriesSuggestion`, which follows the
runtime `Object.entries` order. -/
def declOrderSuggestion (proc : String) : Option String :=
  (CPT_REF.find?
    (fun e => e.2.procedures.any (fun p => strIncludes proc p))).map (·.1)

/-- A claim whose procedure text matches both the knee entry (73721) and
the brain entry (70551). -/
def c4Claim : ClaimInput :=
  ⟨"Jane Roe", "1980-01-01", some "ZX-1", "MRI Knee MRI Brain", none⟩

/-- Claim C4 (counterexample): on a procedure matching two table entries
the code suggests "70551" — `Object.entries` enumerates the integer-like
keys 70551, 72148, 73721 in ascending numeric order — while a scan of the
table in declaration order, as the claim states, would suggest "73721". -/
theorem C4_counterexample :
    (coderCore c4Claim).1 = some "70551" ∧
    declOrderSuggestion (coderProc c4Claim) = some "73721" ∧
    (some "70551" : Option String) ≠ some "73721" :=
  ⟨by decide, by decide, by decide⟩

/-- `coderCore` reads only the procedure text and the supplied CPT code. -/
theorem coderCore_only_proc_cpt (pn dob : String) (ins : Option String)
    (proc : String) (cpt : Option String) :
    coderCore ⟨pn, dob, ins, proc, cpt⟩ = coderCore ⟨"", "", none, proc, cpt⟩ := rfl

/-- A `coderValid` claim names a table entry matching its procedure text. -/
theorem coderValid_imp_entry (claim : ClaimInput)
    (hv : coderValid claim = true) :
    ∃ pr ∈ CPT_entries,
      pr.2.procedures.any (fun p => strIncludes (coderProc claim) p) = true := by
  unfold coderValid coderValidAux at hv
  cases hc : claim.cptCode with
  | none => rw [hc] at hv; exact absurd hv (by simp)
  | some c =>
    rw [hc] at hv
    by_cases hce : (c == "") = true
    · simp [hce] at hv
    · simp only [hce, if_false, Bool.if_false_left] at hv
      cases hl : cptLookup c with
      | none => rw [hl] at hv; simp at hv
      | some entry =>
        rw [hl] at hv
        simp only at hv
        unfold cptLookup at hl
        cases hf : CPT_entries.find? (fun e => e.1 == c) with
        | none => rw [hf] at hl; exact absurd hl (by simp)
        | some pr =>
          rw [hf] at hl
          refine ⟨pr, List.mem_of_find?_eq_some hf, ?_⟩
          have hpe : pr.2 = entry := by simpa using hl
          rw [hpe]
          exact hv

/-- Claim C4 (amended): for procedure "MRI Knee" and no supplied code the
Coder suggests "73721"; for the same procedure with supplied code "73721"
the valid flag is true and the suggestion equals the supplied code; and in
general, when the supplied code does not validate, the Coder scans the
lookup table in `Object.entries` enumeration order — ascending numeric key
order (70551, 72148, 73721), not declaration order — suggesting the first
code one of whose substrings occurs in the lowercased, trimmed procedure
text, and null when no entry matches. -/
theorem C4_coder_suggestion (claim : ClaimInput) :
    (claim.procedure = "MRI Knee" → claim.cptCode = none →
      (coderCore claim).1 = some "73721") ∧
    (claim.procedure = "MRI Knee" → claim.cptCode = some "73721" →
      (coderCore claim).2 = true ∧ (coderCore claim).1 = claim.cptCode) ∧
    ((coderCore claim).2 = false →
      (coderCore claim).1 = entriesSuggestion (coderProc claim)) ∧
    ((∀ e ∈ CPT_entries, ∀ p ∈ e.2.procedures,
        strIncludes (coderProc claim) p = false) →
      (coderCore claim).1 = none) ∧
    ((coderCore claim).2 = true → (coderCore claim).1 = claim.cptCode) := by
  obtain ⟨pn, dob, ins, proc, cpt⟩ := claim
  refine ⟨?_, ?_, ?_, ?_, ?_⟩
  · intro h1 h2
    simp only at h1 h2
    subst h1; subst h2
    rw [coderCore_only_proc_cpt]
    decide
  · intro h1 h2
    simp only at h1 h2
    subst h1; subst h2
    rw [coderCore_only_proc_cpt]
    refine ⟨by decide, ?_⟩
    show (coderCore ⟨"", "", none, "MRI Knee", some "73721"⟩).1 = some "73721"
    decide
  · intro h2
    unfold coderCore at h2 ⊢
    cases hv : coderValid ⟨pn, dob, ins, proc, cpt⟩ <;> simp_all
  · intro hnone
    have hv : coderValid ⟨pn, dob, ins, proc, cpt⟩ = false := by
      cases hv : coderValid ⟨pn, dob, ins, proc, cpt⟩
      · rfl
      · exfalso
        obtain ⟨pr, hpr, hany⟩ := coderValid_imp_entry _ hv
        obtain ⟨p, hp, hip⟩ := List.any_eq_true.mp hany
        rw [hnone pr hpr p hp] at hip
        exact Bool.false_ne_true hip
    unfold coderCore
    rw [if_neg (by simp [hv])]
    unfold entriesSuggestion
    rw [List.find?_eq_none.mpr ?_]
    · rfl
    · intro e he
      simp only [Bool.not_eq_true, List.any_eq_false]
      intro p hp
      exact hnone e he p hp
  · intro h2
    unfold coderCore at h2 ⊢
    cases hv : coderValid ⟨pn, dob, ins, proc, cpt⟩ <;> simp_all

/-- Witness for C4 at the two concrete example claims. -/
theorem C4_coder_suggestion_witness :
    (coderCore ⟨"John Doe", "1975-01-01", some "A1", "MRI Knee", none⟩).1 =
      some "73721" ∧
    (coderCore ⟨"John Doe", "1975-01-01", some "A1", "MRI Knee", some "73721"⟩).2 =
      true :=
  ⟨(C4_coder_suggestion ⟨"John Doe", "1975-01-01", some "A1", "MRI Knee", none⟩).1
      rfl rfl,
   ((C4_coder_suggestion
      ⟨"John Doe", "1975-01-01", some "A1", "MRI Knee", some "73721"⟩).2.1
      rfl rfl).1⟩

/-! ## Date normalization (claims C5, C10) -/

/-- No string matches both date patterns: an ISO string starts with four
digits, while the M/D/Y month group holds at most two. -/
theorem matchISO_eq_false_of_matchMDY (s : String) (x : String × String × String)
    (hm : matchMDY s = some x) : matchISO s = false := by
  cases hiso : matchISO s
  · rfl
  · exfalso
    unfold matchISO at hiso
    split at hiso
    case h_2 => exact Bool.false_ne_true hiso
    case h_1 y1 y2 y3 y4 h1 m1 m2 h2 d1 d2 heq =>
      simp only [Bool.and_eq_true, beq_iff_eq] at hiso
      obtain ⟨⟨⟨⟨⟨⟨⟨⟨⟨hy1, hy2⟩, hy3⟩, hy4⟩, hh1⟩, hm1⟩, hm2⟩, hh2⟩, hd1⟩, hd2⟩ := hiso
      subst hh1
      subst hh2
      unfold matchMDY at hm
      rw [heq] at hm
      simp only [List.takeWhile_cons, List.dropWhile_cons, hy1, hy2, hy3, hy4,
        hm1, hm2, hd1, hd2, if_true,
        (by decide : Char.isDigit (Char.ofNat 45) = false), if_false,
        List.length_cons] at hm
      repeat' split at hm
      all_goals simp_all

/-- The M/D/Y rewrite branch of `normalizeDOB`, isolated. -/
theorem normalizeDOB_mdy (s m d y : String) (hm : matchMDY s = some (m, d, y)) :
    normalizeDOB s =
      padStart ((if y.length = 2 then "19" else "") ++ y) 4 '0' ++ "-" ++
        padStart m 2 '0' ++ "-" ++ padStart d 2 '0' := by
  have hiso := matchISO_eq_false_of_matchMDY s (m, d, y) hm
  simp only [normalizeDOB, hiso, hm, Bool.false_eq_true, if_false]

/-- Claim C5: date normalization maps "01/01/1975" to "1975-01-01" and
"01/01/75" to "1975-01-01"; for recognized M/D/Y or M-D-Y inputs the year
is prefixed with "19" exactly when it has two digits (then everything is
zero-padded into YYYY-MM-DD); and a string matching neither the YYYY-MM-DD
pattern nor the M/D/Y / M-D-Y pattern is returned unchanged. -/
theorem C5_normalizeDOB :
    normalizeDOB "01/01/1975" = "1975-01-01" ∧
    normalizeDOB "01/01/75" = "1975-01-01" ∧
    (∀ s m d y, matchMDY s = some (m, d, y) →
      normalizeDOB s =
        padStart ((if y.length = 2 then "19" else "") ++ y) 4 '0' ++ "-" ++
          padStart m 2 '0' ++ "-" ++ padStart d 2 '0') ∧
    (∀ s, matchISO s = false → matchMDY s = none → normalizeDOB s = s) := by
  refine ⟨by decide, by decide, normalizeDOB_mdy, ?_⟩
  intro s h1 h2
  simp [normalizeDOB, h1, h2]

/-- Witness for C5 at concrete inputs for each universally quantified part. -/
theorem C5_normalizeDOB_witness :
    normalizeDOB "01/01/1975" = "1975-01-01" ∧
    normalizeDOB "3-4-67" =
      padStart ((if ("67" : String).length = 2 then "19" else "") ++ "67") 4 '0' ++
        "-" ++ padStart "3" 2 '0' ++ "-" ++ padStart "4" 2 '0' ∧
    normalizeDOB "January 1" = "January 1" :=
  ⟨C5_normalizeDOB.1,
   C5_normalizeDOB.2.2.1 "3-4-67" "3" "4" "67" (by decide),
   C5_normalizeDOB.2.2.2 "January 1" (by decide) (by decide)⟩

theorem padStart_length (s : String) (n : Nat) (c : Char) :
    (padStart s n c).length = max n s.length := by
  unfold padStart
  rw [String.length_append]
  show (List.replicate (n - s.length) c).length + s.length = max n s.length
  rw [List.length_replicate]
  omega

/-- Inversion of a successful M/D/Y match: group lengths are bounded and the
input consists of the three groups and the two separators. -/
theorem matchMDY_structure (s m d y : String)
    (hm : matchMDY s = some (m, d, y)) :
    s.length = m.length + d.length + y.length + 2 ∧
    1 ≤ m.length ∧ m.length ≤ 2 ∧ 1 ≤ d.length ∧ d.length ≤ 2 ∧
    2 ≤ y.length ∧ y.length ≤ 4 := by
  unfold matchMDY at hm
  simp only at hm
  cases heq1 : s.data.dropWhile Char.isDigit with
  | nil => rw [heq1] at hm; exact absurd hm (by simp)
  | cons c1 r1 =>
    rw [heq1] at hm
    simp only at hm
    cases heq2 : r1.dropWhile Char.isDigit with
    | nil => rw [heq2] at hm; exact absurd hm (by simp)
    | cons c2 r2 =>
      rw [heq2] at hm
      simp only at hm
      cases heq3 : r2.dropWhile Char.isDigit with
      | cons c3 r3 => rw [heq3] at hm; exact absurd hm (by simp)
      | nil =>
        rw [heq3] at hm
        simp only at hm
        split at hm
        case isFalse => exact absurd hm (by simp)
        case isTrue hcond =>
          simp only [Option.some.injEq, Prod.mk.injEq] at hm
          obtain ⟨hm1, hm2, hm3⟩ := hm
          subst hm1; subst hm2; subst hm3
          have hsplit1 : s.data.takeWhile Char.isDigit ++ c1 :: r1 = s.data := by
            rw [← heq1]; exact List.takeWhile_append_dropWhile _ _
          have hsplit2 : r1.takeWhile Char.isDigit ++ c2 :: r2 = r1 := by
            rw [← heq2]; exact List.takeWhile_append_dropWhile _ _
          have hsplit3 : r2.takeWhile Char.isDigit = r2 := by
            have := List.takeWhile_append_dropWhile (p := Char.isDigit) (l := r2)
            rw [heq3, List.append_nil] at this
            exact this
          have hlen1 := congrArg List.length hsplit1
          have hlen2 := congrArg List.length hsplit2
          have hlen3 := congrArg List.length hsplit3
          simp only [List.length_append, List.length_cons] at hlen1 hlen2 hlen3
          obtain ⟨h1, h2, _, h3, h4, _, h5, h6⟩ := hcond
          refine ⟨?_, h1, h2, h3, h4, h5, h6⟩
          show s.data.length = _
          simp only [String.length] at *
          omega

/-- Claim C10: for every date string of the M/D/Y or M-D-Y form whose year
group has exactly three digits, `normalizeDOB` recognizes it and rewrites
it with the year left-padded with zeros to four digits — no "19" prefix
(that applies only to two-digit years) and no unchanged pass-through. -/
theorem C10_three_digit_year (s m d y : String)
    (hm : matchMDY s = some (m, d, y)) (hy : y.length = 3) :
    normalizeDOB s =
      padStart y 4 '0' ++ "-" ++ padStart m 2 '0' ++ "-" ++ padStart d 2 '0' ∧
    normalizeDOB s ≠ s := by
  have heq := normalizeDOB_mdy s m d y hm
  rw [hy, if_neg (by decide : ¬ (3 = 2)), String.empty_append] at heq
  refine ⟨heq, ?_⟩
  intro hcontra
  obtain ⟨hslen, hmlo, hmhi, hdlo, hdhi, hylo, hyhi⟩ := matchMDY_structure s m d y hm
  have hlenN : (normalizeDOB s).length = 10 := by
    have hdash : ("-" : String).length = 1 := rfl
    rw [heq]
    simp only [String.length_append, padStart_length, hdash]
    omega
  have hcongr := congrArg String.length hcontra
  rw [hlenN] at hcongr
  omega

/-- Witness for C10 at the concrete input "1/2/975". -/
theorem C10_three_digit_year_witness :
    normalizeDOB "1/2/975" =
      padStart "975" 4 '0' ++ "-" ++ padStart "1" 2 '0' ++ "-" ++ padStart "2" 2 '0' ∧
    normalizeDOB "1/2/975" ≠ "1/2/975" :=
  C10_three_digit_year "1/2/975" "1" "2" "975" (by decide) (by decide)

/-! ## Orchestrator metrics (claim C7) -/

theorem runWorkflow_metrics (parsed : ClaimInput)
    (lv : Except Unit (Option (List String))) (lc lr : Except Unit (Option String))
    (ms : ℚ) :
    (runWorkflow parsed lv lc lr ms).metrics =
      runMetrics ms (runWorkflow parsed lv lc lr ms).submission.status := rfl

theorem runMetrics_automatedSeconds (ms : ℚ) (status : SubStatus) :
    (runMetrics ms status).automatedSeconds = max 1 ⌊ms / 1000 + 1 / 2⌋ := rfl

/-- Claim C7 (counterexample): at an elapsed duration of 1500 ms the code's
`Math.round` yields automatedSeconds = 2, while the claimed
`max(1, floor(d/1000))` yields 1. -/
theorem C7_counterexample :
    (runWorkflow ⟨"John Doe", "1975-01-01", some "A1", "MRI Knee", some "73721"⟩
      (.error ()) (.error ()) (.error ()) 1500).metrics.automatedSeconds = 2 ∧
    max 1 ⌊(1500 : ℚ) / 1000⌋ = 1 ∧ (2 : ℤ) ≠ 1 := by
  refine ⟨?_, ?_, by decide⟩
  · rw [runWorkflow_metrics, runMetrics_automatedSeconds]
    have h : (1500 : ℚ) / 1000 + 1 / 2 = 2 := by norm_num
    rw [h]
    norm_num
  · have h : (1500 : ℚ) / 1000 = 3 / 2 := by norm_num
    rw [h]
    norm_num

/-- Claim C7 (amended): for every wall-clock elapsed duration d ms of the
five-step sequence, the metrics report automatedSeconds equal to d/1000
rounded with JS `Math.round` — half toward positive infinity, i.e.
`⌊d/1000 + 1/2⌋`, not floored — with a minimum of one second, alongside the
fixed baseline constant 72 s and a clean-claim rate that is 98 when the
submission status is READY and 82 otherwise. -/
theorem C7_metrics (parsed : ClaimInput)
    (lv : Except Unit (Option (List String))) (lc lr : Except Unit (Option String))
    (ms : ℚ) :
    (runWorkflow parsed lv lc lr ms).metrics.automatedSeconds =
      max 1 ⌊ms / 1000 + 1 / 2⌋ ∧
    1 ≤ (runWorkflow parsed lv lc lr ms).metrics.automatedSeconds ∧
    (runWorkflow parsed lv lc lr ms).metrics.baselineSeconds = 72 ∧
    (runWorkflow parsed lv lc lr ms).metrics.cleanClaimRate =
      (if (runWorkflow parsed lv lc lr ms).submission.status = .READY
       then 98 else 82) := by
  refine ⟨rfl, ?_, ?_, ?_⟩
  · rw [runWorkflow_metrics, runMetrics_automatedSeconds]
    exact le_max_left 1 _
  · show (12 * 60 / 10 : ℚ) = 72
    norm_num
  · rw [runWorkflow_metrics]
    unfold runMetrics
    cases h : (runWorkflow parsed lv lc lr ms).submission.status <;> simp [h]
